import Mathlib

/-!
Verification of the two monitoring scripts of this repository:
`prometheus_exporters/solana/exporter.py` (slot-comparison Prometheus
exporter) and `betterstack/solana/hearbeat.py` (getHealth / heartbeat
forwarder).  The network layer (`requests.post` / `requests.get`) is
modelled by an abstract outcome per URL; everything the Python code does
with such an outcome is translated directly.
-/

namespace ChainflipMonitors

/-- A JSON value that can sit in the `result` field of a decoded RPC
response body.  `num n` is a JSON integer.  `other` stands for any JSON
value that Python `float()` rejects (object, array, `true`/`false`,
non-numeric string); passing such a value to a Prometheus `Gauge.set`
raises.  (JSON `null` is not represented here: `dict.get("result")`
returns `None` for it, which the scripts cannot distinguish from an
absent key, so it is folded into the "absent" case below.) -/
inductive JsonVal where
  | num (n : Int)
  | other
deriving DecidableEq

/-- A decoded JSON response body, keeping exactly the observations the
two scripts make of it.  `obj hasErrorKey resultField` is a JSON object:
`hasErrorKey` records whether it has a top-level `"error"` key and
`resultField` the value of its `"result"` key (`none` for absent or
`null`).  `num n` is a body that is a bare JSON number — a non-object
body, on which `dict`-style access raises in Python. -/
inductive Json where
  | obj (hasErrorKey : Bool) (resultField : Option JsonVal)
  | num (n : Int)
deriving DecidableEq

/-- Outcome of decoding a response body: `decodeErr` when
`response.json()` raises, `decoded j` otherwise. -/
inductive RespBody where
  | decodeErr
  | decoded (j : Json)
deriving DecidableEq

/-- Outcome of an HTTP POST as observed through the `requests` API:
either the call itself raised a `requests.RequestException`
(connection error, timeout, ...), or a response with a status code and
a body arrived. -/
inductive PostResult where
  | exc
  | resp (status : Nat) (body : RespBody)
deriving DecidableEq

/-- A Python exception class escaping the scripts' own `try` blocks.
`typeError` also stands in for the `ValueError` that `float()` raises on
a non-numeric string. -/
inductive PyErr where
  | keyError
  | typeError
  | attributeError
deriving DecidableEq

/-- `requests.Response.raise_for_status` raises `requests.HTTPError`
precisely for status codes in `[400, 600)` (client and server errors);
1xx/2xx/3xx and out-of-range codes do not raise. -/
def raisesForStatus (status : Nat) : Bool :=
  decide (400 ≤ status ∧ status < 600)

end ChainflipMonitors

namespace ChainflipMonitors.Exporter

/-- One entry of the exporter's `"hosts"` config list: a label and an
RPC URL. -/
structure eHost where
  host : String
  rpc_url : String
deriving DecidableEq

/-- The exporter's configuration: the trusted reference endpoint URL
and the ordered host list.  (`prometheus_exporter_port` is read only by
the HTTP-server bootstrap, outside the evaluation core.) -/
structure eConfig where
  reference_endpoint : String
  hosts : List eHost

/-- The process-wide Prometheus metric state of `exporter.py`.  Labeled
gauges are total maps from host label to last-set value, `none` meaning
the label child was never set; counters start at `0` and are only ever
incremented. -/
@[ext]
structure MetricState where
  node_slot : String → Option Int
  reference_slot : Option Int
  slot_difference : String → Option Int
  node_slot_error_count : String → Nat
  reference_slot_error_count : Nat

/-- The metric state at process start: nothing set, all counters `0`. -/
def initState : MetricState :=
  { node_slot := fun _ => none
    reference_slot := none
    slot_difference := fun _ => none
    node_slot_error_count := fun _ => 0
    reference_slot_error_count := 0 }

/-- Point update of a labeled metric family: `Gauge.labels(host=k)`
followed by a set/inc writes `v` at label `k` and leaves every other
label unchanged. -/
def setLabel {α : Type} (f : String → α) (k : String) (v : α) : String → α :=
  fun l => if l = k then v else f l

/-- `get_slot_number` of `exporter.py` applied to the outcome of its
POST.  Transport failures and `raise_for_status` errors are
`requests.RequestException`s and yield `None`; so does a decode failure
(`requests ≥ 2.27` raises `requests.exceptions.JSONDecodeError`, a
`RequestException` subclass).  On a decoded object body the function
returns `response.json().get("result")` verbatim, with no type check;
on a non-object body, `.get` does not exist and an `AttributeError`
escapes. -/
def get_slot_number (pr : PostResult) : Except PyErr (Option JsonVal) :=
  match pr with
  | .exc => .ok none
  | .resp status body =>
    if raisesForStatus status then .ok none
    else
      match body with
      | .decodeErr => .ok none
      | .decoded (.obj _ resultField) => .ok resultField
      | .decoded (.num _) => .error .attributeError

/-- Result of one run of `check_node_slots`: the metric state, the list
of URLs sent a `getSlot` POST (in order), and whether a Python
exception escaped (`some e`), in which case `state` and `probed` are
what had happened up to the raise. -/
structure CycleResult where
  state : MetricState
  probed : List String
  err : Option PyErr

/-- Prepend a probed URL to a cycle result. -/
def consProbe (u : String) (t : CycleResult) : CycleResult :=
  { state := t.state, probed := u :: t.probed, err := t.err }

/-- `NODE_SLOT_NUMBER_ERROR_COUNT.labels(host=k).inc()`: add one to the
error counter of label `k`. -/
def bumpErr (st : MetricState) (k : String) : MetricState :=
  { st with node_slot_error_count := setLabel st.node_slot_error_count k (st.node_slot_error_count k + 1) }

/-- `NODE_SLOT_NUMBER.labels(host=k).set(s)` followed by
`SLOT_DIFFERENCE.labels(host=k).set(diff)`. -/
def setSlots (st : MetricState) (k : String) (s diff : Int) : MetricState :=
  { st with node_slot := setLabel st.node_slot k (some s),
            slot_difference := setLabel st.slot_difference k (some diff) }

/-- The per-host `for` loop of `check_node_slots`, given the reference
slot `r` already observed.  On a slot value the node-slot gauge and
then the slot-difference gauge (`r - s`) for that host's label are set;
on `None` the host's error counter is incremented; a non-integer slot
value makes `Gauge.set` raise and a raised exception aborts the loop. -/
def checkHosts (env : String → PostResult) (r : Int) :
    List eHost → MetricState → CycleResult
  | [], st => { state := st, probed := [], err := none }
  | h :: rest, st =>
    match get_slot_number (env h.rpc_url) with
    | .error e => { state := st, probed := [h.rpc_url], err := some e }
    | .ok none =>
      consProbe h.rpc_url (checkHosts env r rest (bumpErr st h.host))
    | .ok (some (.num s)) =>
      consProbe h.rpc_url (checkHosts env r rest (setSlots st h.host s (r - s)))
    | .ok (some .other) =>
      { state := st, probed := [h.rpc_url], err := some .typeError }

/-- `check_node_slots` of `exporter.py`: probe the reference endpoint;
on `None` increment the reference error counter and return; otherwise
set the reference-slot gauge (a non-integer value makes the set raise)
and run the per-host loop. -/
def check_node_slots (env : String → PostResult) (cfg : eConfig)
    (st : MetricState) : CycleResult :=
  match get_slot_number (env cfg.reference_endpoint) with
  | .error e =>
    { state := st, probed := [cfg.reference_endpoint], err := some e }
  | .ok none =>
    { state :=
        { st with reference_slot_error_count :=
            st.reference_slot_error_count + 1 }
      probed := [cfg.reference_endpoint]
      err := none }
  | .ok (some (.num r)) =>
    consProbe cfg.reference_endpoint
      (checkHosts env r cfg.hosts { st with reference_slot := some r })
  | .ok (some .other) =>
    { state := st, probed := [cfg.reference_endpoint], err := some .typeError }

/-- A `getSlot` probe outcome that the exporter absorbs without
raising: either "no value" or an integer slot. -/
def goodSlotOutcome (pr : PostResult) : Prop :=
  get_slot_number pr = .ok none ∨
    ∃ n : Int, get_slot_number pr = .ok (some (.num n))

/-- The exporter's `while True: schedule.run_pending()` loop, one entry
per executed cycle; `envs k` is the network during cycle `k`.  The
top-level `except Exception` logs and then falls through to process
exit, so after a cycle whose evaluation raised the loop is dead and the
state freezes. -/
def exporterRun (envs : Nat → String → PostResult) (cfg : eConfig)
    (st : MetricState) : Nat → MetricState × Bool
  | 0 => (st, true)
  | n + 1 =>
    match exporterRun envs cfg st n with
    | (s, true) =>
      ((check_node_slots (envs n) cfg s).state,
        (check_node_slots (envs n) cfg s).err.isNone)
    | (s, false) => (s, false)

end ChainflipMonitors.Exporter

namespace ChainflipMonitors.Heartbeat

/-- One entry of the heartbeat script's `"hosts"` config list.  The
JSON object may lack the `"heartbeat_endpoint"` key, hence the
`Option`: `host["heartbeat_endpoint"]` on such an entry raises
`KeyError`. -/
structure hHost where
  host : String
  rpc_url : String
  heartbeat_endpoint : Option String
deriving DecidableEq

/-- `check_rpc_call` of `hearbeat.py` applied to the outcome of its
`getHealth` POST.  Transport, `raise_for_status` and JSON-decode
failures are `requests.RequestException`s, caught and turned into
`False`.  On a decoded object body the result is the absence of a
top-level `"error"` key.  On a decoded non-object (number) body,
`"error" in result` raises `TypeError`, which nothing catches. -/
def check_rpc_call (pr : PostResult) : Except PyErr Bool :=
  match pr with
  | .exc => .ok false
  | .resp status body =>
    if raisesForStatus status then .ok false
    else
      match body with
      | .decodeErr => .ok false
      | .decoded (.obj hasErrorKey _) => .ok (!hasErrorKey)
      | .decoded (.num _) => .error .typeError

/-- Observable trace of one run of `job`: the RPC URLs probed in
order, the heartbeat endpoints handed to `send_heartbeat` in order
(`send_heartbeat` absorbs its own delivery failures, so only the
invocation is observable), and the exception that escaped the loop, if
any — in which case `probed` and `beats` are what had happened up to
the raise. -/
structure JobTrace where
  probed : List String
  beats : List String
  raised : Option PyErr
deriving DecidableEq

/-- Prepend a probed RPC URL to a job trace. -/
def addProbe (u : String) (t : JobTrace) : JobTrace :=
  { t with probed := u :: t.probed }

/-- Prepend a sent heartbeat to a job trace. -/
def addBeat (e : String) (t : JobTrace) : JobTrace :=
  { t with beats := e :: t.beats }

/-- `job` of `hearbeat.py`: for each host in order, run
`check_rpc_call`; on `True`, look up `host["heartbeat_endpoint"]`
(raising `KeyError` if the key is absent) and call `send_heartbeat`
with it; on `False` do nothing for that host.  A raised exception
propagates, ending the loop. -/
def job (env : String → PostResult) : List hHost → JobTrace
  | [] => { probed := [], beats := [], raised := none }
  | h :: rest =>
    match check_rpc_call (env h.rpc_url) with
    | .error e => { probed := [h.rpc_url], beats := [], raised := some e }
    | .ok false => addProbe h.rpc_url (job env rest)
    | .ok true =>
      match h.heartbeat_endpoint with
      | none => { probed := [h.rpc_url], beats := [], raised := some .keyError }
      | some ep => addProbe h.rpc_url (addBeat ep (job env rest))

/-- The heartbeat script's scheduler (`job` once at startup, then
`while True: sleep(30); job(config)`), one entry per executed cycle;
`envs k` is the network during cycle `k`.  Nothing catches an exception
escaping `job`, so the process dies with it. -/
def heartbeatAlive (envs : Nat → String → PostResult) (hosts : List hHost) :
    Nat → Bool
  | 0 => true
  | n + 1 => heartbeatAlive envs hosts n && (job (envs n) hosts).raised.isNone

end ChainflipMonitors.Heartbeat

namespace ChainflipMonitors.Exporter

theorem setLabel_same {α : Type} (f : String → α) (k : String) (v : α) :
    setLabel f k v k = v := by
  simp [setLabel]

theorem setLabel_other {α : Type} (f : String → α) (k l : String) (v : α)
    (h : l ≠ k) : setLabel f k v l = f l := by
  simp [setLabel, h]

theorem checkHosts_preserves_unlisted (env : String → PostResult) (r : Int)
    (l : List eHost) :
    ∀ (st : MetricState) (lbl : String), (∀ x ∈ l, x.host ≠ lbl) →
      (checkHosts env r l st).state.node_slot lbl = st.node_slot lbl ∧
      (checkHosts env r l st).state.slot_difference lbl = st.slot_difference lbl ∧
      (checkHosts env r l st).state.node_slot_error_count lbl =
        st.node_slot_error_count lbl := by
  induction l with
  | nil => intro st lbl _; simp [checkHosts]
  | cons h rest ih =>
    intro st lbl hne
    have hh : lbl ≠ h.host := fun e => hne h (List.mem_cons_self h rest) e.symm
    have hr : ∀ x ∈ rest, x.host ≠ lbl := fun x hx =>
      hne x (List.mem_cons_of_mem h hx)
    cases E : get_slot_number (env h.rpc_url) with
    | error e => simp [checkHosts, E]
    | ok o =>
      match o with
      | none =>
        have hih := ih (bumpErr st h.host) lbl hr
        simp only [checkHosts, E, consProbe]
        refine ⟨hih.1.trans ?_, hih.2.1.trans ?_, hih.2.2.trans ?_⟩ <;>
          simp [bumpErr, setLabel, hh]
      | some (.num s) =>
        have hih := ih (setSlots st h.host s (r - s)) lbl hr
        simp only [checkHosts, E, consProbe]
        refine ⟨hih.1.trans ?_, hih.2.1.trans ?_, hih.2.2.trans ?_⟩ <;>
          simp [setSlots, setLabel, hh]
      | some .other => simp [checkHosts, E]

theorem checkHosts_preserves_reference (env : String → PostResult) (r : Int)
    (l : List eHost) :
    ∀ st : MetricState,
      (checkHosts env r l st).state.reference_slot = st.reference_slot ∧
      (checkHosts env r l st).state.reference_slot_error_count =
        st.reference_slot_error_count := by
  induction l with
  | nil => intro st; simp [checkHosts]
  | cons h rest ih =>
    intro st
    cases E : get_slot_number (env h.rpc_url) with
    | error e => simp [checkHosts, E]
    | ok o =>
      match o with
      | none =>
        have hih := ih (bumpErr st h.host)
        simp only [checkHosts, E, consProbe]
        exact ⟨hih.1.trans rfl, hih.2.trans rfl⟩
      | some (.num s) =>
        have hih := ih (setSlots st h.host s (r - s))
        simp only [checkHosts, E, consProbe]
        exact ⟨hih.1.trans rfl, hih.2.trans rfl⟩
      | some .other => simp [checkHosts, E]

theorem checkHosts_error_count_mono (env : String → PostResult) (r : Int)
    (l : List eHost) :
    ∀ (st : MetricState) (lbl : String),
      st.node_slot_error_count lbl ≤
        (checkHosts env r l st).state.node_slot_error_count lbl := by
  induction l with
  | nil => intro st lbl; simp [checkHosts]
  | cons h rest ih =>
    intro st lbl
    cases E : get_slot_number (env h.rpc_url) with
    | error e => simp [checkHosts, E]
    | ok o =>
      match o with
      | none =>
        have hih := ih (bumpErr st h.host) lbl
        simp only [checkHosts, E, consProbe]
        refine le_trans ?_ hih
        by_cases hb : lbl = h.host
        · subst hb; simp [bumpErr, setLabel]
        · simp [bumpErr, setLabel, hb]
      | some (.num s) =>
        have hih := ih (setSlots st h.host s (r - s)) lbl
        simp only [checkHosts, E, consProbe]
        exact le_trans (le_of_eq rfl) hih
      | some .other => simp [checkHosts, E]

theorem checkHosts_no_raise (env : String → PostResult) (r : Int)
    (l : List eHost) :
    ∀ st : MetricState, (∀ x ∈ l, goodSlotOutcome (env x.rpc_url)) →
      (checkHosts env r l st).err = none := by
  induction l with
  | nil => intro st _; simp [checkHosts]
  | cons h rest ih =>
    intro st hg
    have hrest : ∀ x ∈ rest, goodSlotOutcome (env x.rpc_url) := fun x hx =>
      hg x (List.mem_cons_of_mem h hx)
    rcases hg h (List.mem_cons_self h rest) with E | ⟨n, E⟩
    · simp only [checkHosts, E, consProbe]
      exact ih (bumpErr st h.host) hrest
    · simp only [checkHosts, E, consProbe]
      exact ih (setSlots st h.host n (r - n)) hrest

theorem checkHosts_mem_success (env : String → PostResult) (r : Int)
    (h : eHost) (s : Int) (l : List eHost) :
    ∀ st : MetricState, (∀ x ∈ l, goodSlotOutcome (env x.rpc_url)) →
      h ∈ l → (l.map eHost.host).Nodup →
      get_slot_number (env h.rpc_url) = .ok (some (.num s)) →
      (checkHosts env r l st).state.node_slot h.host = some s ∧
      (checkHosts env r l st).state.slot_difference h.host = some (r - s) := by
  induction l with
  | nil => intro st _ hmem _ _; cases hmem
  | cons a rest ih =>
    intro st hg hmem hnd hs
    have hrest : ∀ x ∈ rest, goodSlotOutcome (env x.rpc_url) := fun x hx =>
      hg x (List.mem_cons_of_mem a hx)
    simp only [List.map_cons, List.nodup_cons] at hnd
    rcases List.mem_cons.mp hmem with rfl | hmem'
    · simp only [checkHosts, hs, consProbe]
      have hne : ∀ x ∈ rest, x.host ≠ h.host := fun x hx e =>
        hnd.1 (List.mem_map.mpr ⟨x, hx, e⟩)
      have hp := checkHosts_preserves_unlisted env r rest
        (setSlots st h.host s (r - s)) h.host hne
      exact ⟨hp.1.trans (by simp [setSlots, setLabel]),
        hp.2.1.trans (by simp [setSlots, setLabel])⟩
    · rcases hg a (List.mem_cons_self a rest) with E | ⟨n, E⟩
      · simp only [checkHosts, E, consProbe]
        exact ih (bumpErr st a.host) hrest hmem' hnd.2 hs
      · simp only [checkHosts, E, consProbe]
        exact ih (setSlots st a.host n (r - n)) hrest hmem' hnd.2 hs

theorem checkHosts_mem_failure (env : String → PostResult) (r : Int)
    (h : eHost) (l : List eHost) :
    ∀ st : MetricState, (∀ x ∈ l, goodSlotOutcome (env x.rpc_url)) →
      h ∈ l → (l.map eHost.host).Nodup →
      get_slot_number (env h.rpc_url) = .ok none →
      (checkHosts env r l st).state.node_slot_error_count h.host =
        st.node_slot_error_count h.host + 1 ∧
      (checkHosts env r l st).state.node_slot h.host = st.node_slot h.host ∧
      (checkHosts env r l st).state.slot_difference h.host =
        st.slot_difference h.host := by
  induction l with
  | nil => intro st _ hmem _ _; cases hmem
  | cons a rest ih =>
    intro st hg hmem hnd hs
    have hrest : ∀ x ∈ rest, goodSlotOutcome (env x.rpc_url) := fun x hx =>
      hg x (List.mem_cons_of_mem a hx)
    simp only [List.map_cons, List.nodup_cons] at hnd
    rcases List.mem_cons.mp hmem with rfl | hmem'
    · simp only [checkHosts, hs, consProbe]
      have hne : ∀ x ∈ rest, x.host ≠ h.host := fun x hx e =>
        hnd.1 (List.mem_map.mpr ⟨x, hx, e⟩)
      have hp := checkHosts_preserves_unlisted env r rest
        (bumpErr st h.host) h.host hne
      exact ⟨hp.2.2.trans (by simp [bumpErr, setLabel]),
        hp.1.trans rfl, hp.2.1.trans rfl⟩
    · have hha : h.host ≠ a.host := fun e =>
        hnd.1 (e ▸ List.mem_map.mpr ⟨h, hmem', rfl⟩)
      rcases hg a (List.mem_cons_self a rest) with E | ⟨n, E⟩
      · have hih := ih (bumpErr st a.host) hrest hmem' hnd.2 hs
        simp only [checkHosts, E, consProbe]
        refine ⟨hih.1.trans ?_, hih.2.1.trans rfl, hih.2.2.trans rfl⟩
        simp [bumpErr, setLabel, hha]
      · have hih := ih (setSlots st a.host n (r - n)) hrest hmem' hnd.2 hs
        simp only [checkHosts, E, consProbe]
        refine ⟨hih.1.trans rfl, hih.2.1.trans ?_, hih.2.2.trans ?_⟩ <;>
          simp [setSlots, setLabel, hha]

theorem checkHosts_success_counts (env : String → PostResult) (r : Int)
    (l : List eHost) :
    ∀ st : MetricState,
      (∀ x ∈ l, ∃ n : Int, get_slot_number (env x.rpc_url) = .ok (some (.num n))) →
      (checkHosts env r l st).state.node_slot_error_count =
        st.node_slot_error_count := by
  induction l with
  | nil => intro st _; simp [checkHosts]
  | cons a rest ih =>
    intro st hg
    obtain ⟨n, E⟩ := hg a (List.mem_cons_self a rest)
    have hrest : ∀ x ∈ rest, ∃ n : Int,
        get_slot_number (env x.rpc_url) = .ok (some (.num n)) := fun x hx =>
      hg x (List.mem_cons_of_mem a hx)
    simp only [checkHosts, E, consProbe]
    exact (ih (setSlots st a.host n (r - n)) hrest).trans rfl

theorem checkHosts_success_written (env : String → PostResult) (r : Int)
    (l : List eHost) :
    ∀ (st st' : MetricState) (lbl : String),
      (∀ x ∈ l, ∃ n : Int, get_slot_number (env x.rpc_url) = .ok (some (.num n))) →
      lbl ∈ l.map eHost.host →
      (checkHosts env r l st).state.node_slot lbl =
        (checkHosts env r l st').state.node_slot lbl ∧
      (checkHosts env r l st).state.slot_difference lbl =
        (checkHosts env r l st').state.slot_difference lbl := by
  induction l with
  | nil => intro st st' lbl _ hmem; simp at hmem
  | cons a rest ih =>
    intro st st' lbl hg hmem
    obtain ⟨n, E⟩ := hg a (List.mem_cons_self a rest)
    have hrest : ∀ x ∈ rest, ∃ n : Int,
        get_slot_number (env x.rpc_url) = .ok (some (.num n)) := fun x hx =>
      hg x (List.mem_cons_of_mem a hx)
    simp only [checkHosts, E, consProbe]
    by_cases hm : lbl ∈ rest.map eHost.host
    · exact ih (setSlots st a.host n (r - n)) (setSlots st' a.host n (r - n))
        lbl hrest hm
    · have hla : lbl = a.host := by
        simp only [List.map_cons, List.mem_cons] at hmem
        rcases hmem with h1 | h1
        · exact h1
        · exact absurd h1 hm
      subst hla
      have hne : ∀ x ∈ rest, x.host ≠ a.host := fun x hx e =>
        hm (List.mem_map.mpr ⟨x, hx, e⟩)
      have hp := checkHosts_preserves_unlisted env r rest
        (setSlots st a.host n (r - n)) a.host hne
      have hp' := checkHosts_preserves_unlisted env r rest
        (setSlots st' a.host n (r - n)) a.host hne
      constructor
      · rw [hp.1, hp'.1]; simp [setSlots, setLabel]
      · rw [hp.2.1, hp'.2.1]; simp [setSlots, setLabel]

/-- Claim C1: in a cycle where the reference probe yields `r`, every
configured host whose slot probe yields `s` gets its slot gauge set to
exactly `s` and its slot-difference gauge set to exactly `r - s`
(negative when the node is ahead of the reference).  Host labels are
unique (a spec invariant) and every probe of the cycle reports a value
or no value. -/
theorem node_gauges_set_on_success (env : String → PostResult)
    (cfg : eConfig) (st : MetricState) (h : eHost) (r s : Int)
    (href : get_slot_number (env cfg.reference_endpoint) = .ok (some (.num r)))
    (hall : ∀ x ∈ cfg.hosts, goodSlotOutcome (env x.rpc_url))
    (hmem : h ∈ cfg.hosts)
    (hs : get_slot_number (env h.rpc_url) = .ok (some (.num s)))
    (hnd : (cfg.hosts.map eHost.host).Nodup) :
    (check_node_slots env cfg st).state.node_slot h.host = some s ∧
    (check_node_slots env cfg st).state.slot_difference h.host =
      some (r - s) := by
  simp only [check_node_slots, href, consProbe]
  exact checkHosts_mem_success env r h s cfg.hosts
    { st with reference_slot := some r } hall hmem hnd hs

/-- Claim C3: a cycle whose reference probe yields no value increments
the reference-error counter by exactly 1, modifies no other metric
(the whole result state is `st` with only that counter bumped), probes
no host (only the reference endpoint was POSTed), and raises nothing. -/
theorem reference_failure_aborts_cycle (env : String → PostResult)
    (cfg : eConfig) (st : MetricState)
    (href : get_slot_number (env cfg.reference_endpoint) = .ok none) :
    check_node_slots env cfg st =
      { state := { st with reference_slot_error_count := st.reference_slot_error_count + 1 },
        probed := [cfg.reference_endpoint],
        err := none } := by
  simp [check_node_slots, href]

/-- Claim C4: in a cycle where the reference probe yields `r`, a
configured host whose slot probe yields no value gets its error
counter incremented by exactly 1 while its slot gauge and
slot-difference gauge keep their values from before the cycle. -/
theorem host_failure_increments_counter (env : String → PostResult)
    (cfg : eConfig) (st : MetricState) (h : eHost) (r : Int)
    (href : get_slot_number (env cfg.reference_endpoint) = .ok (some (.num r)))
    (hall : ∀ x ∈ cfg.hosts, goodSlotOutcome (env x.rpc_url))
    (hmem : h ∈ cfg.hosts)
    (hs : get_slot_number (env h.rpc_url) = .ok none)
    (hnd : (cfg.hosts.map eHost.host).Nodup) :
    (check_node_slots env cfg st).state.node_slot_error_count h.host =
      st.node_slot_error_count h.host + 1 ∧
    (check_node_slots env cfg st).state.node_slot h.host = st.node_slot h.host ∧
    (check_node_slots env cfg st).state.slot_difference h.host =
      st.slot_difference h.host := by
  simp only [check_node_slots, href, consProbe]
  have hm := checkHosts_mem_failure env r h cfg.hosts
    { st with reference_slot := some r } hall hmem hnd hs
  exact ⟨hm.1.trans rfl, hm.2.1.trans rfl, hm.2.2.trans rfl⟩

/-- Claim C9: one run of the cycle evaluator, from any metric state and
under any network behaviour (including ones that make it raise midway),
leaves every per-host error counter and the reference error counter at
a value greater than or equal to its prior value; no path through the
evaluator resets a counter. -/
theorem error_counters_monotone (env : String → PostResult)
    (cfg : eConfig) (st : MetricState) (lbl : String) :
    st.node_slot_error_count lbl ≤
      (check_node_slots env cfg st).state.node_slot_error_count lbl ∧
    st.reference_slot_error_count ≤
      (check_node_slots env cfg st).state.reference_slot_error_count := by
  cases E : get_slot_number (env cfg.reference_endpoint) with
  | error e => simp [check_node_slots, E]
  | ok o =>
    match o with
    | none =>
      simp only [check_node_slots, E]
      exact ⟨le_refl _, Nat.le_succ _⟩
    | some (.num r) =>
      simp only [check_node_slots, E, consProbe]
      constructor
      · exact checkHosts_error_count_mono env r cfg.hosts
          { st with reference_slot := some r } lbl
      · rw [(checkHosts_preserves_reference env r cfg.hosts
          { st with reference_slot := some r }).2]
    | some .other => simp [check_node_slots, E]

/-- Claim C8: running the cycle evaluator twice with identical,
everywhere-successful probe results leaves every gauge and counter
exactly where a single run leaves them. -/
theorem cycle_idempotent (env : String → PostResult) (cfg : eConfig)
    (st : MetricState) (r : Int)
    (href : get_slot_number (env cfg.reference_endpoint) = .ok (some (.num r)))
    (hall : ∀ x ∈ cfg.hosts, ∃ n : Int,
      get_slot_number (env x.rpc_url) = .ok (some (.num n))) :
    (check_node_slots env cfg (check_node_slots env cfg st).state).state =
      (check_node_slots env cfg st).state := by
  simp only [check_node_slots, href, consProbe]
  have hAr : (checkHosts env r cfg.hosts { st with reference_slot := some r }).state.reference_slot = some r :=
    (checkHosts_preserves_reference env r cfg.hosts _).1
  have hA0 : ({ (checkHosts env r cfg.hosts { st with reference_slot := some r }).state with reference_slot := some r } : MetricState) =
      (checkHosts env r cfg.hosts { st with reference_slot := some r }).state := by
    apply MetricState.ext <;> simp [hAr]
  rw [hA0]
  apply MetricState.ext
  · funext lbl
    by_cases hm : lbl ∈ cfg.hosts.map eHost.host
    · exact (checkHosts_success_written env r cfg.hosts _ _ lbl hall hm).1
    · have hne : ∀ x ∈ cfg.hosts, x.host ≠ lbl := fun x hx e =>
        hm (List.mem_map.mpr ⟨x, hx, e⟩)
      exact (checkHosts_preserves_unlisted env r cfg.hosts _ lbl hne).1
  · exact (checkHosts_preserves_reference env r cfg.hosts _).1
  · funext lbl
    by_cases hm : lbl ∈ cfg.hosts.map eHost.host
    · exact (checkHosts_success_written env r cfg.hosts _ _ lbl hall hm).2
    · have hne : ∀ x ∈ cfg.hosts, x.host ≠ lbl := fun x hx e =>
        hm (List.mem_map.mpr ⟨x, hx, e⟩)
      exact (checkHosts_preserves_unlisted env r cfg.hosts _ lbl hne).2.1
  · exact checkHosts_success_counts env r cfg.hosts _ hall
  · exact (checkHosts_preserves_reference env r cfg.hosts _).2

/-- Claim C6 as stated is false on the code: `get_slot_number` returns
`response.json().get("result")` with no type check, so a 2xx response
whose body is `\x7b"result": <non-integer>\x7d` makes the probe return that
non-integer value instead of "no value". -/
theorem slot_probe_returns_non_integer :
    ¬ ∀ pr : PostResult, ∃ o, get_slot_number pr = .ok o ∧
        ∀ v, o = some v → ∃ n : Int, v = JsonVal.num n := by
  intro hcl
  obtain ⟨o, ho, hv⟩ := hcl (.resp 200 (.decoded (.obj false (some .other))))
  have hg : get_slot_number (.resp 200 (.decoded (.obj false (some .other)))) =
      .ok (some JsonVal.other) := by rfl
  rw [hg] at ho
  obtain ⟨n, hn⟩ := hv JsonVal.other (Except.ok.inj ho).symm
  cases hn

/-- Claim C6 amended: a transport failure, a status in `[400, 600)`
(what `raise_for_status` raises on), a JSON decode failure, or a
missing `result` field yields "no value"; a present `result` field is
returned verbatim, with no validation that it is an integer; a body
that decodes to a non-object raises `AttributeError` past the probe. -/
theorem slot_probe_characterization :
    get_slot_number .exc = .ok none ∧
    (∀ (s : Nat) (b : RespBody), raisesForStatus s = true →
      get_slot_number (.resp s b) = .ok none) ∧
    (∀ s : Nat, raisesForStatus s = false →
      get_slot_number (.resp s .decodeErr) = .ok none) ∧
    (∀ (s : Nat) (k : Bool), raisesForStatus s = false →
      get_slot_number (.resp s (.decoded (.obj k none))) = .ok none) ∧
    (∀ (s : Nat) (k : Bool) (v : JsonVal), raisesForStatus s = false →
      get_slot_number (.resp s (.decoded (.obj k (some v)))) = .ok (some v)) ∧
    (∀ (s : Nat) (n : Int), raisesForStatus s = false →
      get_slot_number (.resp s (.decoded (.num n))) = .error .attributeError) := by
  refine ⟨rfl, ?_, ?_, ?_, ?_, ?_⟩ <;> intros <;> simp_all [get_slot_number]

/-- Witness for the amended C6 at concrete inputs: a 503 response with
a perfectly good integer result still yields "no value", and a 200
response carries its integer result through. -/
theorem slot_probe_characterization_witness :
    raisesForStatus 503 = true ∧
    get_slot_number (.resp 503 (.decoded (.obj false (some (.num 7))))) = .ok none ∧
    raisesForStatus 200 = false ∧
    get_slot_number (.resp 200 (.decoded (.obj false (some (.num 7))))) = .ok (some (.num 7)) :=
  ⟨by decide, slot_probe_characterization.2.1 503 _ (by decide),
   by decide, slot_probe_characterization.2.2.2.2.1 200 false (.num 7) (by decide)⟩

end ChainflipMonitors.Exporter

namespace ChainflipMonitors.Heartbeat

theorem job_beats_from_hosts (env : String → PostResult) (l : List hHost) :
    ∀ e ∈ (job env l).beats, some e ∈ l.map hHost.heartbeat_endpoint := by
  induction l with
  | nil => intro e he; simp [job] at he
  | cons a rest ih =>
    intro e he
    cases E : check_rpc_call (env a.rpc_url) with
    | error err => simp [job, E] at he
    | ok b =>
      cases b with
      | false =>
        simp only [job, E, addProbe] at he
        obtain ⟨x, hx, hfx⟩ := List.mem_map.mp (ih e he)
        exact List.mem_map.mpr ⟨x, List.mem_cons_of_mem a hx, hfx⟩
      | true =>
        cases hep : a.heartbeat_endpoint with
        | none => simp [job, E, hep] at he
        | some ep =>
          simp only [job, E, hep, addProbe, addBeat] at he
          rcases List.mem_cons.mp he with rfl | he'
          · exact List.mem_map.mpr ⟨a, List.mem_cons_self a rest, hep⟩
          · obtain ⟨x, hx, hfx⟩ := List.mem_map.mp (ih e he')
            exact List.mem_map.mpr ⟨x, List.mem_cons_of_mem a hx, hfx⟩

/-- Claim C2: in a cycle where every host's getHealth probe reports a
result, a host reporting healthy has its configured heartbeat endpoint
handed to the heartbeat forwarder exactly once, and a host reporting
unhealthy has it handed zero times.  Heartbeat endpoints are assumed
pairwise distinct (each host pings its own dead-man's-switch URL) and
every host has one configured. -/
theorem heartbeat_sent_iff_healthy (env : String → PostResult)
    (hosts : List hHost) (h : hHost) (ep : String)
    (hall : ∀ x ∈ hosts, ∃ b, check_rpc_call (env x.rpc_url) = .ok b)
    (hconf : ∀ x ∈ hosts, x.heartbeat_endpoint.isSome = true)
    (hnd : (hosts.map hHost.heartbeat_endpoint).Nodup)
    (hmem : h ∈ hosts) (hep : h.heartbeat_endpoint = some ep) :
    (check_rpc_call (env h.rpc_url) = .ok true →
      ((job env hosts).beats).count ep = 1) ∧
    (check_rpc_call (env h.rpc_url) = .ok false →
      ((job env hosts).beats).count ep = 0) := by
  induction hosts with
  | nil => cases hmem
  | cons a rest ih =>
    have hallr : ∀ x ∈ rest, ∃ b, check_rpc_call (env x.rpc_url) = .ok b :=
      fun x hx => hall x (List.mem_cons_of_mem a hx)
    have hconfr : ∀ x ∈ rest, x.heartbeat_endpoint.isSome = true :=
      fun x hx => hconf x (List.mem_cons_of_mem a hx)
    simp only [List.map_cons, List.nodup_cons] at hnd
    rcases List.mem_cons.mp hmem with rfl | hmem'
    · have hnotin : ep ∉ (job env rest).beats := fun hin =>
        hnd.1 (hep ▸ job_beats_from_hosts env rest ep hin)
      constructor
      · intro htrue
        simp only [job, htrue, hep, addProbe, addBeat]
        rw [List.count_cons_self, List.count_eq_zero.mpr hnotin]
      · intro hfalse
        simp only [job, hfalse, addProbe]
        exact List.count_eq_zero.mpr hnotin
    · obtain ⟨b, hb⟩ := hall a (List.mem_cons_self a rest)
      have hihr := ih hallr hconfr hnd.2 hmem'
      cases b with
      | false =>
        simp only [job, hb, addProbe]
        exact hihr
      | true =>
        have hsome := hconf a (List.mem_cons_self a rest)
        cases hepa : a.heartbeat_endpoint with
        | none => rw [hepa] at hsome; cases hsome
        | some epa =>
          have hne : (epa == ep) = false := by
            have hepne : epa ≠ ep := fun e => by
              apply hnd.1
              rw [hepa, e, ← hep]
              exact List.mem_map.mpr ⟨h, hmem', rfl⟩
            simp [hepne]
          simp only [job, hb, hepa, addProbe, addBeat]
          constructor
          · intro htrue
            rw [List.count_cons, hne]
            simpa using hihr.1 htrue
          · intro hfalse
            rw [List.count_cons, hne]
            simpa using hihr.2 hfalse

end ChainflipMonitors.Heartbeat

namespace ChainflipMonitors.Exporter

theorem check_node_slots_no_raise (env : String → PostResult)
    (cfg : eConfig) (st : MetricState)
    (hg : ∀ u : String, goodSlotOutcome (env u)) :
    (check_node_slots env cfg st).err = none := by
  rcases hg cfg.reference_endpoint with E | ⟨n, E⟩
  · simp [check_node_slots, E]
  · simp only [check_node_slots, E, consProbe]
    exact checkHosts_no_raise env n cfg.hosts _ (fun x _ => hg x.rpc_url)

end ChainflipMonitors.Exporter

namespace ChainflipMonitors.Heartbeat

/-- Claim C5 as stated is false on the code: a 2xx response whose body
decodes to a bare JSON number has no top-level error field, yet
`"error" in result` on a Python `int` raises `TypeError`, which the
handler (for `requests.RequestException` only) does not catch — the
probe raises past its caller instead of returning a result. -/
theorem health_probe_can_raise :
    ¬ ∀ pr : PostResult, ∃ b, check_rpc_call pr = .ok b := by
  intro hcl
  obtain ⟨b, hb⟩ := hcl (.resp 200 (.decoded (.num 5)))
  have hg : check_rpc_call (.resp 200 (.decoded (.num 5))) =
      .error .typeError := by rfl
  rw [hg] at hb
  cases hb

/-- Claim C5 amended: a transport failure, a status in `[400, 600)`
(what `raise_for_status` raises on), or a JSON decode failure yields
Unhealthy; a surfaced response with any other status whose body
decodes to an object yields Healthy exactly when the object has no
top-level error field; a body decoding to a non-object makes the
probe raise `TypeError` past its caller. -/
theorem health_probe_characterization :
    check_rpc_call .exc = .ok false ∧
    (∀ (s : Nat) (b : RespBody), raisesForStatus s = true →
      check_rpc_call (.resp s b) = .ok false) ∧
    (∀ s : Nat, raisesForStatus s = false →
      check_rpc_call (.resp s .decodeErr) = .ok false) ∧
    (∀ (s : Nat) (k : Bool) (rf : Option JsonVal), raisesForStatus s = false →
      check_rpc_call (.resp s (.decoded (.obj k rf))) = .ok (!k)) ∧
    (∀ (s : Nat) (n : Int), raisesForStatus s = false →
      check_rpc_call (.resp s (.decoded (.num n))) = .error .typeError) := by
  refine ⟨rfl, ?_, ?_, ?_, ?_⟩ <;> intros <;> simp_all [check_rpc_call]

/-- Witness for the amended C5 at concrete inputs: a 503 is Unhealthy,
a 200 object body without an error key is Healthy. -/
theorem health_probe_characterization_witness :
    raisesForStatus 503 = true ∧
    check_rpc_call (.resp 503 (.decoded (.obj false none))) = .ok false ∧
    raisesForStatus 200 = false ∧
    check_rpc_call (.resp 200 (.decoded (.obj false none))) = .ok true :=
  ⟨by decide, health_probe_characterization.2.1 503 _ (by decide),
   by decide, health_probe_characterization.2.2.2.1 200 false none (by decide)⟩

/-- Claim C10: with a configuration whose first host entry lacks the
`"heartbeat_endpoint"` key and reports healthy, `job` raises `KeyError`
at that host: no heartbeat is sent for it and the second configured
host is never probed (only the first host's RPC URL was POSTed). -/
theorem missing_heartbeat_key_aborts_job :
    check_rpc_call ((fun _ => PostResult.resp 200 (.decoded (.obj false none))) "ua") = .ok true ∧
    job (fun _ => PostResult.resp 200 (.decoded (.obj false none)))
        [⟨"a", "ua", none⟩, ⟨"b", "ub", some "eb"⟩] =
      { probed := ["ua"], beats := [], raised := some .keyError } :=
  ⟨rfl, rfl⟩

theorem job_no_raise (env : String → PostResult) (l : List hHost)
    (hall : ∀ u : String, ∃ b, check_rpc_call (env u) = .ok b)
    (hconf : ∀ h ∈ l, h.heartbeat_endpoint.isSome = true) :
    (job env l).raised = none := by
  induction l with
  | nil => rfl
  | cons a rest ih =>
    have hconfr : ∀ h ∈ rest, h.heartbeat_endpoint.isSome = true :=
      fun h hh => hconf h (List.mem_cons_of_mem a hh)
    obtain ⟨b, hb⟩ := hall a.rpc_url
    cases b with
    | false => simp only [job, hb, addProbe]; exact ih hconfr
    | true =>
      have hsome := hconf a (List.mem_cons_self a rest)
      cases hepa : a.heartbeat_endpoint with
      | none => rw [hepa] at hsome; cases hsome
      | some ep =>
        simp only [job, hb, hepa, addProbe, addBeat]
        exact ih hconfr

/-- Claim C7 as stated is false on the code: a malformed (non-object)
response body is a per-probe error, yet it raises `TypeError` inside
`check_rpc_call`, nothing in `job` or the heartbeat script's
`while True` loop catches it, and the process dies in its first
cycle instead of proceeding. -/
theorem malformed_body_kills_loop :
    check_rpc_call ((fun (_ : Nat) (_ : String) =>
        PostResult.resp 200 (.decoded (.num 5))) 0 "u1") = .error .typeError ∧
    heartbeatAlive (fun _ _ => PostResult.resp 200 (.decoded (.num 5)))
        [⟨"h1", "u1", some "e1"⟩] 1 = false :=
  ⟨rfl, rfl⟩

end ChainflipMonitors.Heartbeat

namespace ChainflipMonitors

/-- Claim C7 amended: probe outcomes the probers absorb — transport
failures, 4xx/5xx statuses, JSON decode failures, and for the exporter
any outcome yielding "no value" or an integer slot — never terminate
either scheduler loop: the heartbeat loop (given every host has a
heartbeat endpoint configured) and the exporter loop are still alive
after any number of such cycles.  (Heartbeat-delivery failures are
absorbed inside `send_heartbeat` and cannot reach the loop at all.)
What can terminate the loops is a response body of unexpected JSON
shape, as the counterexample to the original claim shows. -/
theorem loops_survive_probe_failures :
    (∀ (envs : Nat → String → PostResult) (hosts : List Heartbeat.hHost) (n : Nat),
      (∀ (k : Nat) (u : String), ∃ b, Heartbeat.check_rpc_call (envs k u) = .ok b) →
      (∀ h ∈ hosts, h.heartbeat_endpoint.isSome = true) →
      Heartbeat.heartbeatAlive envs hosts n = true) ∧
    (∀ (envs : Nat → String → PostResult) (cfg : Exporter.eConfig)
        (st : Exporter.MetricState) (n : Nat),
      (∀ (k : Nat) (u : String), Exporter.goodSlotOutcome (envs k u)) →
      (Exporter.exporterRun envs cfg st n).2 = true) := by
  constructor
  · intro envs hosts n hall hconf
    induction n with
    | zero => rfl
    | succ n ih =>
      simp only [Heartbeat.heartbeatAlive, ih,
        Heartbeat.job_no_raise (envs n) hosts (hall n) hconf]
      rfl
  · intro envs cfg st n hg
    induction n with
    | zero => rfl
    | succ n ih =>
      simp only [Exporter.exporterRun]
      cases hp : Exporter.exporterRun envs cfg st n with
      | mk s alive =>
        rw [hp] at ih
        cases alive with
        | false => cases ih
        | true =>
          simp only
          rw [Exporter.check_node_slots_no_raise (envs n) cfg s (hg n)]
          rfl

end ChainflipMonitors

namespace ChainflipMonitors.Exporter

/-- A one-host demonstration configuration. -/
def demoCfg : eConfig := ⟨"ref", [⟨"a", "ua"⟩]⟩

/-- A network where the reference endpoint reports slot 5 and the
host's node reports slot 9 (the node is ahead of the reference). -/
def demoEnvOk : String → PostResult := fun u =>
  if u = "ref" then .resp 200 (.decoded (.obj false (some (.num 5))))
  else if u = "ua" then .resp 200 (.decoded (.obj false (some (.num 9))))
  else .exc

/-- A network where every POST raises a transport error. -/
def demoEnvDown : String → PostResult := fun _ => .exc

/-- A network where the reference endpoint reports slot 5 and every
other URL is unreachable. -/
def demoEnvHostFail : String → PostResult := fun u =>
  if u = "ref" then .resp 200 (.decoded (.obj false (some (.num 5)))) else .exc

/-- Witness for C1 at a concrete cycle: reference slot 5, node slot 9,
so the difference gauge gets the negative value `5 - 9`. -/
theorem node_gauges_set_on_success_witness :
    get_slot_number (demoEnvOk demoCfg.reference_endpoint) = .ok (some (.num 5)) ∧
    get_slot_number (demoEnvOk "ua") = .ok (some (.num 9)) ∧
    ((check_node_slots demoEnvOk demoCfg initState).state.node_slot "a" = some 9 ∧
     (check_node_slots demoEnvOk demoCfg initState).state.slot_difference "a" = some (5 - 9)) := by
  refine ⟨rfl, rfl, ?_⟩
  exact node_gauges_set_on_success demoEnvOk demoCfg initState ⟨"a", "ua"⟩ 5 9 rfl
    (fun x hx => by
      simp only [demoCfg, List.mem_singleton] at hx
      subst hx
      exact Or.inr ⟨9, rfl⟩)
    (by decide) rfl (by decide)

/-- Witness for C3 at a concrete cycle: the reference POST raises a
transport error, the counter goes from 0 to 1 and nothing else moves. -/
theorem reference_failure_aborts_cycle_witness :
    get_slot_number (demoEnvDown demoCfg.reference_endpoint) = .ok none ∧
    check_node_slots demoEnvDown demoCfg initState =
      { state := { initState with reference_slot_error_count := initState.reference_slot_error_count + 1 },
        probed := [demoCfg.reference_endpoint],
        err := none } :=
  ⟨rfl, reference_failure_aborts_cycle demoEnvDown demoCfg initState rfl⟩

/-- Witness for C4 at a concrete cycle: reference slot 5, host POST
raises, its counter goes up by one and its gauges stay unset. -/
theorem host_failure_increments_counter_witness :
    get_slot_number (demoEnvHostFail demoCfg.reference_endpoint) = .ok (some (.num 5)) ∧
    get_slot_number (demoEnvHostFail "ua") = .ok none ∧
    ((check_node_slots demoEnvHostFail demoCfg initState).state.node_slot_error_count "a" =
        initState.node_slot_error_count "a" + 1 ∧
     (check_node_slots demoEnvHostFail demoCfg initState).state.node_slot "a" =
        initState.node_slot "a" ∧
     (check_node_slots demoEnvHostFail demoCfg initState).state.slot_difference "a" =
        initState.slot_difference "a") := by
  refine ⟨rfl, rfl, ?_⟩
  exact host_failure_increments_counter demoEnvHostFail demoCfg initState ⟨"a", "ua"⟩ 5 rfl
    (fun x hx => by
      simp only [demoCfg, List.mem_singleton] at hx
      subst hx
      exact Or.inl rfl)
    (by decide) rfl (by decide)

/-- Witness for C8 at a concrete all-success cycle. -/
theorem cycle_idempotent_witness :
    get_slot_number (demoEnvOk demoCfg.reference_endpoint) = .ok (some (.num 5)) ∧
    (check_node_slots demoEnvOk demoCfg (check_node_slots demoEnvOk demoCfg initState).state).state =
      (check_node_slots demoEnvOk demoCfg initState).state := by
  refine ⟨rfl, ?_⟩
  exact cycle_idempotent demoEnvOk demoCfg initState 5 rfl
    (fun x hx => by
      simp only [demoCfg, List.mem_singleton] at hx
      subst hx
      exact ⟨9, rfl⟩)

end ChainflipMonitors.Exporter

namespace ChainflipMonitors.Heartbeat

/-- A network where the getHealth POST to `"ua"` yields a healthy
object body and every other URL an object body with an error field. -/
def demoEnvHealth : String → PostResult := fun u =>
  if u = "ua" then .resp 200 (.decoded (.obj false none))
  else .resp 200 (.decoded (.obj true none))

/-- Witness for C2 at a concrete cycle: of two configured hosts the
first reports healthy and gets exactly one heartbeat, the second
reports unhealthy. -/
theorem heartbeat_sent_iff_healthy_witness :
    check_rpc_call (demoEnvHealth "ua") = .ok true ∧
    (job demoEnvHealth [⟨"a", "ua", some "ea"⟩, ⟨"b", "ub", some "eb"⟩]).beats.count "ea" = 1 := by
  refine ⟨rfl, ?_⟩
  exact (heartbeat_sent_iff_healthy demoEnvHealth
      [⟨"a", "ua", some "ea"⟩, ⟨"b", "ub", some "eb"⟩] ⟨"a", "ua", some "ea"⟩ "ea"
    (fun x hx => by
      rcases List.mem_cons.mp hx with rfl | hx'
      · exact ⟨true, rfl⟩
      · rcases List.mem_singleton.mp hx' with rfl
        exact ⟨false, rfl⟩)
    (by decide) (by decide) (by decide) rfl).1 rfl

end ChainflipMonitors.Heartbeat

namespace ChainflipMonitors

/-- Witness for the amended C7 at a concrete run: with every POST
raising a transport error in every cycle, both loops are still alive
after three cycles. -/
theorem loops_survive_probe_failures_witness :
    Heartbeat.heartbeatAlive (fun _ _ => PostResult.exc) [⟨"h", "u", some "e"⟩] 3 = true ∧
    (Exporter.exporterRun (fun _ _ => PostResult.exc) ⟨"r", [⟨"h", "u"⟩]⟩ Exporter.initState 3).2 = true :=
  ⟨loops_survive_probe_failures.1 _ _ 3 (fun _ _ => ⟨false, rfl⟩) (by decide),
   loops_survive_probe_failures.2 _ _ _ 3 (fun _ _ => Or.inl rfl)⟩

end ChainflipMonitors
